import Mathlib

/-!
Verification of the MoneyRace backend: gas-sponsorship transaction relay and
event-aggregation pipeline.

The definitions below are a shallow embedding of the TypeScript source:

- MoveEvent models the parsed ledger events (PlayerJoined / DepositMade payloads,
  fields room_id, player, amount, player_position_id, timestampMs).  The source
  reads amount with parseInt(...) combined with a fallback of 0, so amount is
  modelled as an Option Nat whose parse failure collapses to 0 via eventAmount.
- calculateRoomTotalDeposit embeds src/services/event.service.ts,
  calculateRoomTotalDeposit (filter both event lists by room_id, accumulate the
  amounts, divide by the base-unit scale 1,000,000).  The division is modelled
  exactly over the rationals.
- executeSponsoredTxWithUserSignature embeds the signature-composition logic of
  src/services/relayer.service.ts (JSON-list detection of an incoming
  multi-signature, sponsor co-signing otherwise); JSON.parse and the sponsor
  keypair are external libraries and appear as abstract function parameters.
- accrueYield / accrueSequence embed the yield-accrual block of the GET
  room-by-id handler in src/routes/room.routes.ts.
- seedParticipants / applyDeposit embed the participants aggregation of the GET
  participants handler; the JS Map is modelled as an association list with the
  usual set/get/has operations.
- findRoomByPassword, mintHandler and listRoomsFiltered embed the
  find-by-password, usdc mint and room-list handlers respectively.
-/

namespace MoneyRace

/-- A ledger event as the route handlers see it after JSON parsing: the fields
of the parsedJson payload that the aggregation code reads, plus the event
timestamp.  amount is the result of parsing the amount string (none when the
parse fails, which the source collapses to 0). -/
structure MoveEvent where
  room_id : String
  player : String
  amount : Option Nat
  player_position_id : String
  timestampMs : Option Nat
deriving DecidableEq

/-- parseInt(event.parsedJson?.amount) combined with a fallback of 0. -/
def eventAmount (e : MoveEvent) : Nat :=
  e.amount.getD 0

/-- The filter predicate event.parsedJson?.room_id === roomId. -/
def matchesRoom (roomId : String) (e : MoveEvent) : Bool :=
  e.room_id == roomId

/-- The USDC base-unit scale (constants/index.ts, USDC_DECIMALS = 1_000_000). -/
def USDC_DECIMALS : ℚ := 1000000

/-- Embedding of calculateRoomTotalDeposit (event.service.ts): sum the amount
field over the PlayerJoined events of the room, then over the DepositMade
events of the room, and convert from base units by dividing by the scale. -/
def calculateRoomTotalDeposit (roomId : String)
    (joinEvents depositEvents : List MoveEvent) : ℚ :=
  let afterJoins : Nat :=
    (joinEvents.filter (matchesRoom roomId)).foldl
      (fun acc e => acc + eventAmount e) 0
  let totalDepositInUnits : Nat :=
    (depositEvents.filter (matchesRoom roomId)).foldl
      (fun acc e => acc + eventAmount e) afterJoins
  (totalDepositInUnits : ℚ) / USDC_DECIMALS

lemma foldl_add_eventAmount (l : List MoveEvent) (init : Nat) :
    l.foldl (fun acc e => acc + eventAmount e) init
      = init + (l.map eventAmount).sum := by
  induction l generalizing init with
  | nil => simp
  | cons e l ih =>
      simp only [List.foldl_cons, List.map_cons, List.sum_cons]
      rw [ih]
      omega

lemma calculateRoomTotalDeposit_eq_sum (roomId : String)
    (joinEvents depositEvents : List MoveEvent) :
    calculateRoomTotalDeposit roomId joinEvents depositEvents
      = ((((joinEvents.filter (matchesRoom roomId)).map eventAmount).sum
          + ((depositEvents.filter (matchesRoom roomId)).map eventAmount).sum : ℕ) : ℚ)
        / USDC_DECIMALS := by
  simp only [calculateRoomTotalDeposit, foldl_add_eventAmount]
  push_cast
  ring_nf

/-- Claim C1: for every room id and every set of fetched events, the
total-deposit aggregation returns the sum of the amount field over all
PlayerJoined and DepositMade events whose room_id equals the given room id,
divided by the base-unit scale 1,000,000; with zero matching events the result
is 0, and for exactly two matching DepositMade events with amounts 500000 and
250000 it is 0.75. -/
theorem c1_totalDeposit_is_filtered_sum (roomId : String)
    (joinEvents depositEvents : List MoveEvent) :
    (calculateRoomTotalDeposit roomId joinEvents depositEvents
      = ((((joinEvents.filter (matchesRoom roomId)).map eventAmount).sum
          + ((depositEvents.filter (matchesRoom roomId)).map eventAmount).sum : ℕ) : ℚ)
        / 1000000)
    ∧ (joinEvents.filter (matchesRoom roomId) = [] →
        depositEvents.filter (matchesRoom roomId) = [] →
        calculateRoomTotalDeposit roomId joinEvents depositEvents = 0)
    ∧ calculateRoomTotalDeposit "0xroom" []
        [{ room_id := "0xroom", player := "0xp", amount := some 500000,
           player_position_id := "pos1", timestampMs := some 1 },
         { room_id := "0xroom", player := "0xp", amount := some 250000,
           player_position_id := "pos2", timestampMs := some 2 }]
        = 3 / 4 := by
  refine ⟨?_, ?_, ?_⟩
  · rw [calculateRoomTotalDeposit_eq_sum]
    rfl
  · intro hj hd
    rw [calculateRoomTotalDeposit_eq_sum, hj, hd]
    simp
  · rw [calculateRoomTotalDeposit_eq_sum]
    norm_num [matchesRoom, eventAmount, USDC_DECIMALS]

/-- Witness for C1: at the concrete input with no matching events, the
aggregation returns 0. -/
theorem c1_totalDeposit_witness :
    calculateRoomTotalDeposit "0xroom" [] [] = 0 :=
  (c1_totalDeposit_is_filtered_sum "0xroom" [] []).2.1 rfl rfl

/-- Claim C4 counterexample: the deposit aggregation fold is NOT idempotent
under duplicate delivery.  Delivering the same DepositMade event (amount
500000) twice yields a different total (1) than delivering it once (0.5), and
likewise delivering the same PlayerJoined event twice changes the total. -/
theorem c4_duplicate_changes_total :
    (calculateRoomTotalDeposit "0xroom" []
        [{ room_id := "0xroom", player := "0xp", amount := some 500000,
           player_position_id := "pos1", timestampMs := some 1 }]
      ≠ calculateRoomTotalDeposit "0xroom" []
        [{ room_id := "0xroom", player := "0xp", amount := some 500000,
           player_position_id := "pos1", timestampMs := some 1 },
         { room_id := "0xroom", player := "0xp", amount := some 500000,
           player_position_id := "pos1", timestampMs := some 1 }])
    ∧ (calculateRoomTotalDeposit "0xroom"
        [{ room_id := "0xroom", player := "0xp", amount := some 500000,
           player_position_id := "pos1", timestampMs := some 1 }] []
      ≠ calculateRoomTotalDeposit "0xroom"
        [{ room_id := "0xroom", player := "0xp", amount := some 500000,
           player_position_id := "pos1", timestampMs := some 1 },
         { room_id := "0xroom", player := "0xp", amount := some 500000,
           player_position_id := "pos1", timestampMs := some 1 }] []) := by
  constructor
  · rw [calculateRoomTotalDeposit_eq_sum, calculateRoomTotalDeposit_eq_sum]
    norm_num [matchesRoom, eventAmount, USDC_DECIMALS]
  · rw [calculateRoomTotalDeposit_eq_sum, calculateRoomTotalDeposit_eq_sum]
    norm_num [matchesRoom, eventAmount, USDC_DECIMALS]

/-- Claim C4 (amended): the deposit aggregation fold is insensitive to event
order (permuting either event list leaves the aggregate total unchanged), but
it is not idempotent under duplicate delivery: a duplicated matching event,
whether delivered in the PlayerJoined list or in the DepositMade list,
contributes its amount to the total once more per duplicate. -/
theorem c4_order_insensitive_not_duplicate_tolerant (roomId : String)
    (j1 j2 d1 d2 : List MoveEvent) (hj : j1.Perm j2) (hd : d1.Perm d2) :
    calculateRoomTotalDeposit roomId j1 d1 = calculateRoomTotalDeposit roomId j2 d2
    ∧ (∀ e : MoveEvent, matchesRoom roomId e = true →
        calculateRoomTotalDeposit roomId (e :: j1) d1
          = calculateRoomTotalDeposit roomId j1 d1 + (eventAmount e : ℚ) / 1000000)
    ∧ ∀ e : MoveEvent, matchesRoom roomId e = true →
        calculateRoomTotalDeposit roomId j1 (e :: d1)
          = calculateRoomTotalDeposit roomId j1 d1 + (eventAmount e : ℚ) / 1000000 := by
  refine ⟨?_, ?_, ?_⟩
  · rw [calculateRoomTotalDeposit_eq_sum, calculateRoomTotalDeposit_eq_sum]
    rw [((hj.filter (matchesRoom roomId)).map eventAmount).sum_eq,
        ((hd.filter (matchesRoom roomId)).map eventAmount).sum_eq]
  · intro e he
    rw [calculateRoomTotalDeposit_eq_sum, calculateRoomTotalDeposit_eq_sum]
    rw [List.filter_cons_of_pos he]
    simp only [List.map_cons, List.sum_cons, USDC_DECIMALS]
    push_cast
    ring
  · intro e he
    rw [calculateRoomTotalDeposit_eq_sum, calculateRoomTotalDeposit_eq_sum]
    rw [List.filter_cons_of_pos he]
    simp only [List.map_cons, List.sum_cons, USDC_DECIMALS]
    push_cast
    ring

/-- Witness for C4 (amended): swapping two concrete DepositMade events leaves
the total unchanged. -/
theorem c4_order_insensitive_witness :
    calculateRoomTotalDeposit "0xroom" []
        [{ room_id := "0xroom", player := "0xp", amount := some 500000,
           player_position_id := "pos1", timestampMs := some 1 },
         { room_id := "0xroom", player := "0xq", amount := some 250000,
           player_position_id := "pos2", timestampMs := some 2 }]
      = calculateRoomTotalDeposit "0xroom" []
        [{ room_id := "0xroom", player := "0xq", amount := some 250000,
           player_position_id := "pos2", timestampMs := some 2 },
         { room_id := "0xroom", player := "0xp", amount := some 500000,
           player_position_id := "pos1", timestampMs := some 1 }] :=
  (c4_order_insensitive_not_duplicate_tolerant "0xroom" [] []
    _ _ (List.Perm.refl [])
    (List.Perm.swap
      { room_id := "0xroom", player := "0xq", amount := some 250000,
        player_position_id := "pos2", timestampMs := some 2 }
      { room_id := "0xroom", player := "0xp", amount := some 500000,
        player_position_id := "pos1", timestampMs := some 1 } [])).1

/-- Result of attempting JSON.parse on the user-supplied signature string: a
JSON array of signature strings, or any other JSON value.  The parse itself is
an external library call and is passed in as an abstract function (none models
a thrown parse error). -/
inductive Jvalue where
  | arr (sigs : List String)
  | other
deriving DecidableEq

/-- What the relay hands to executeTransactionBlock: the transaction bytes and
the signature list. -/
structure Submission where
  transactionBlock : List Nat
  signature : List String
deriving DecidableEq

/-- Embedding of executeSponsoredTxWithUserSignature (relayer.service.ts):
try to parse the user signature as JSON; when it parses as a list it is used
as-is and no sponsor signature is added; otherwise the sponsor signs the same
transaction bytes and the submitted set is the user signature followed by the
sponsor signature. -/
def executeSponsoredTxWithUserSignature
    (parseJson : String → Option Jvalue) (sponsorSign : List Nat → String)
    (txBytes : List Nat) (userSignature : String) : Submission :=
  match parseJson userSignature with
  | some (Jvalue.arr sigs) =>
      { transactionBlock := txBytes, signature := sigs }
  | _ =>
      { transactionBlock := txBytes
        signature := [userSignature, sponsorSign txBytes] }

/-- Claim C2: for every user-co-signed submission, if the supplied user
signature parses as a JSON list the relay submits with exactly that signature
list and appends no sponsor signature; otherwise it submits the two-element
set of the user signature followed by the sponsor signature over the same
transaction bytes. -/
theorem c2_sponsor_cosign (parseJson : String → Option Jvalue)
    (sponsorSign : List Nat → String) (txBytes : List Nat) (userSignature : String) :
    (∀ sigs, parseJson userSignature = some (Jvalue.arr sigs) →
      executeSponsoredTxWithUserSignature parseJson sponsorSign txBytes userSignature
        = { transactionBlock := txBytes, signature := sigs })
    ∧ ((∀ sigs, parseJson userSignature ≠ some (Jvalue.arr sigs)) →
      executeSponsoredTxWithUserSignature parseJson sponsorSign txBytes userSignature
        = { transactionBlock := txBytes
            signature := [userSignature, sponsorSign txBytes] }) := by
  constructor
  · intro sigs hparse
    unfold executeSponsoredTxWithUserSignature
    rw [hparse]
  · intro hnot
    unfold executeSponsoredTxWithUserSignature
    rcases hv : parseJson userSignature with _ | v
    · rfl
    · cases v with
      | arr sigs => exact absurd hv (hnot sigs)
      | other => rfl

/-- Witness for C2: a concrete parse function that recognises one multi-sig
payload; the multi-sig payload is submitted verbatim while a plain signature
gets the sponsor signature appended. -/
theorem c2_sponsor_cosign_witness :
    (executeSponsoredTxWithUserSignature
        (fun s => if s = "multisig" then some (Jvalue.arr ["sigA", "sigB"]) else none)
        (fun _ => "sponsorSig") [1, 2, 3] "multisig"
      = { transactionBlock := [1, 2, 3], signature := ["sigA", "sigB"] })
    ∧ (executeSponsoredTxWithUserSignature
        (fun s => if s = "multisig" then some (Jvalue.arr ["sigA", "sigB"]) else none)
        (fun _ => "sponsorSig") [1, 2, 3] "plain"
      = { transactionBlock := [1, 2, 3], signature := ["plain", "sponsorSig"] }) := by
  constructor
  · exact (c2_sponsor_cosign _ _ [1, 2, 3] "multisig").1 ["sigA", "sigB"] (by simp)
  · exact (c2_sponsor_cosign _ _ [1, 2, 3] "plain").2 (by intro sigs h; simp at h)

/-- The persisted per-room yield checkpoint: accumulated yield so far and the
timestamp of the last accrual. -/
structure YieldState where
  accumulatedYield : ℚ
  lastUpdateMs : ℚ
deriving DecidableEq

/-- Milliseconds in a 365.25-day year, as computed in room.routes.ts
(365.25 * 24 * 60 * 60 * 1000). -/
def millisecondsPerYear : ℚ := 365.25 * 24 * 60 * 60 * 1000

/-- Embedding of one accrual step of the yield block in the GET room-by-id
handler (room.routes.ts): elapsed time since the checkpoint converted to
years, newYield = principal * apy * elapsedYears, added to the accumulated
yield, and the checkpoint timestamp advanced to now. -/
def accrueYield (principal apy : ℚ) (st : YieldState) (now : ℚ) : YieldState :=
  { accumulatedYield :=
      st.accumulatedYield + principal * apy * ((now - st.lastUpdateMs) / millisecondsPerYear)
    lastUpdateMs := now }

/-- A sequence of accruals with constant principal and APY, one per read. -/
def accrueSequence (principal apy : ℚ) (st : YieldState) (nows : List ℚ) : YieldState :=
  nows.foldl (accrueYield principal apy) st

lemma accrueSequence_closed (p a acc t : ℚ) (nows : List ℚ) :
    accrueSequence p a ⟨acc, t⟩ nows
      = ⟨acc + p * a * ((nows.getLastD t - t) / millisecondsPerYear), nows.getLastD t⟩ := by
  induction nows generalizing acc t with
  | nil => simp [accrueSequence]
  | cons x xs ih =>
      show accrueSequence p a (accrueYield p a ⟨acc, t⟩ x) xs = _
      rw [show accrueYield p a ⟨acc, t⟩ x
            = (⟨acc + p * a * ((x - t) / millisecondsPerYear), x⟩ : YieldState) from rfl]
      rw [ih, List.getLastD_cons]
      have hY : millisecondsPerYear ≠ 0 := by norm_num [millisecondsPerYear]
      congr 1
      field_simp
      ring

lemma millisecondsPerYear_pos : (0 : ℚ) < millisecondsPerYear := by
  norm_num [millisecondsPerYear]

lemma accrueSequence_acc_le (p a : ℚ) (hp : 0 ≤ p) (ha : 0 ≤ a)
    (st : YieldState) (nows : List ℚ)
    (hchain : List.Chain (· ≤ ·) st.lastUpdateMs nows) :
    st.accumulatedYield ≤ (accrueSequence p a st nows).accumulatedYield := by
  induction nows generalizing st with
  | nil => exact le_refl _
  | cons x xs ih =>
      rw [List.chain_cons] at hchain
      have hstep : st.accumulatedYield ≤ (accrueYield p a st x).accumulatedYield := by
        have hincr : 0 ≤ p * a * ((x - st.lastUpdateMs) / millisecondsPerYear) := by
          apply mul_nonneg (mul_nonneg hp ha)
          apply div_nonneg (by linarith [hchain.1]) (le_of_lt millisecondsPerYear_pos)
        simp only [accrueYield]
        linarith
      refine le_trans hstep ?_
      exact ih (accrueYield p a st x) hchain.2

lemma chain_getLastD (R : ℚ → ℚ → Prop) (start : ℚ) (l1 l2 : List ℚ)
    (h : List.Chain R start (l1 ++ l2)) :
    List.Chain R (l1.getLastD start) l2 := by
  induction l1 generalizing start with
  | nil => simpa using h
  | cons x xs ih =>
      rw [List.cons_append, List.chain_cons] at h
      rw [List.getLastD_cons]
      exact ih x h.2

/-- Claim C3: for every sequence of yield accruals with non-decreasing now
timestamps and constant principal and APY, each step adds
principal * apy * (now - lastUpdateMs) / millisecondsPerYear (365.25-day year)
to the previously accumulated yield; the accumulated yield is non-decreasing
across the sequence; and the final accumulated yield equals
principal * apy * (nowFinal - start) / millisecondsPerYear (exactly, over the
rationals, hence within floating-point tolerance). -/
theorem c3_yield_accrual (p a start : ℚ) (l1 l2 : List ℚ)
    (hp : 0 ≤ p) (ha : 0 ≤ a)
    (hchain : List.Chain (· ≤ ·) start (l1 ++ l2)) :
    (∀ (st : YieldState) (now : ℚ),
        (accrueYield p a st now).accumulatedYield
          = st.accumulatedYield
            + p * a * ((now - st.lastUpdateMs) / millisecondsPerYear))
    ∧ (accrueSequence p a ⟨0, start⟩ l1).accumulatedYield
        ≤ (accrueSequence p a ⟨0, start⟩ (l1 ++ l2)).accumulatedYield
    ∧ (accrueSequence p a ⟨0, start⟩ (l1 ++ l2)).accumulatedYield
        = p * a * (((l1 ++ l2).getLastD start - start) / millisecondsPerYear) := by
  refine ⟨fun st now => rfl, ?_, ?_⟩
  · rw [show accrueSequence p a ⟨0, start⟩ (l1 ++ l2)
          = accrueSequence p a (accrueSequence p a ⟨0, start⟩ l1) l2 from
        List.foldl_append _ _ l1 l2]
    apply accrueSequence_acc_le p a hp ha
    rw [accrueSequence_closed]
    exact chain_getLastD _ start l1 l2 hchain
  · rw [accrueSequence_closed]
    simp

/-- Witness for C3: a concrete two-read sequence with principal 1 and the
Stable-strategy APY 4 percent, starting at time 0. -/
theorem c3_yield_accrual_witness :
    (accrueSequence 1 (4 / 100) ⟨0, 0⟩ ([100] ++ [300])).accumulatedYield
      = 1 * (4 / 100) * ((([(100 : ℚ)] ++ [300]).getLastD 0 - 0) / millisecondsPerYear) :=
  (c3_yield_accrual 1 (4 / 100) 0 [100] [300] (by norm_num) (by norm_num)
    (by norm_num [List.chain_cons])).2.2

/-- Association-list model of the JS Map used by the aggregation handlers:
get finds the first binding of the key. -/
def mapGet {α : Type} : List (String × α) → String → Option α
  | [], _ => none
  | p :: m, k => if p.fst == k then some p.snd else mapGet m k

/-- Map.has: does a binding for the key exist. -/
def mapHas {α : Type} : List (String × α) → String → Bool
  | [], _ => false
  | p :: m, k => p.fst == k || mapHas m k

/-- Map.set: replace the binding when the key is present (keeping the map
otherwise intact), or append a new binding. -/
def mapSet {α : Type} : List (String × α) → String → α → List (String × α)
  | [], k, v => [(k, v)]
  | p :: m, k, v => if p.fst == k then (k, v) :: m else p :: mapSet m k v

/-- In-place update of the value bound to a key (models mutating the object
returned by Map.get). -/
def mapUpdate {α : Type} (f : α → α) : List (String × α) → String → List (String × α)
  | [], _ => []
  | p :: m, k => if p.fst == k then (p.fst, f p.snd) :: m else p :: mapUpdate f m k

/-- One aggregated room entry of the GET user-joined-rooms handler
(room.routes.ts): seeded from the PlayerJoined event, then deposits folded in. -/
structure JoinedRoom where
  roomId : String
  playerPositionId : String
  joinedAt : Nat
  initialDeposit : Nat
  totalDeposit : Nat
  depositsCount : Nat
deriving DecidableEq

/-- Case-insensitive address comparison (player.toLowerCase() ===
userAddress.toLowerCase()). -/
def lowerEq (a b : String) : Bool :=
  a.toLower == b.toLower

/-- parseInt(event.timestampMs, with fallbacks of the string "0" and then
Date.now()): a missing or zero timestamp falls back to the current time. -/
def jsTimestamp (nowMs : Nat) (e : MoveEvent) : Nat :=
  match e.timestampMs with
  | some t => if t = 0 then nowMs else t
  | none => nowMs

/-- Seeding of the joined-rooms map from the user's PlayerJoined events: only
events with non-empty room_id and player_position_id strings are recorded,
keyed by room id. -/
def joinedSeed (nowMs : Nat) (userAddress : String) (joins : List MoveEvent) :
    List (String × JoinedRoom) :=
  (joins.filter (fun e => lowerEq e.player userAddress)).foldl
    (fun m e =>
      if e.room_id ≠ "" ∧ e.player_position_id ≠ "" then
        mapSet m e.room_id
          { roomId := e.room_id
            playerPositionId := e.player_position_id
            joinedAt := jsTimestamp nowMs e
            initialDeposit := eventAmount e
            totalDeposit := eventAmount e
            depositsCount := 1 }
      else m) []

/-- Folding one DepositMade event into the joined-rooms map: only the user's
own deposits count, and only for rooms already present in the map. -/
def joinedAddDeposit (userAddress : String) (m : List (String × JoinedRoom))
    (e : MoveEvent) : List (String × JoinedRoom) :=
  if lowerEq e.player userAddress then
    if mapHas m e.room_id then
      mapUpdate
        (fun r => { r with totalDeposit := r.totalDeposit + eventAmount e
                           depositsCount := r.depositsCount + 1 })
        m e.room_id
    else m
  else m

/-- The part of the GET user-joined-rooms response the claims talk about. -/
structure JoinedResponse where
  success : Bool
  rooms : List JoinedRoom
deriving DecidableEq

/-- Embedding of the event-aggregation core of the GET user-joined-rooms
handler (room.routes.ts): a failed PlayerJoined query short-circuits into a
successful response with an empty room list; a failed DepositMade query is
replaced by an empty event list and aggregation proceeds. -/
def userJoinedRooms (nowMs : Nat) (userAddress : String)
    (joinResult depositResult : Except String (List MoveEvent)) : JoinedResponse :=
  match joinResult with
  | Except.error _ => { success := true, rooms := [] }
  | Except.ok joins =>
      let deposits : List MoveEvent :=
        match depositResult with
        | Except.ok d => d
        | Except.error _ => []
      let m := deposits.foldl (joinedAddDeposit userAddress)
        (joinedSeed nowMs userAddress joins)
      { success := true, rooms := m.map Prod.snd }

/-- The part of the GET room-by-id response the deposit aggregation fills in. -/
structure RoomReadDeposit where
  success : Bool
  totalDeposit : ℚ
deriving DecidableEq

/-- Embedding of the totalDeposit block of the GET room-by-id handler
(room.routes.ts): the two event queries run under one try block, so a failure
of either leaves totalDeposit at 0 while the read still succeeds. -/
def roomReadTotalDeposit (roomId : String)
    (queryResult : Except String (List MoveEvent × List MoveEvent)) : RoomReadDeposit :=
  match queryResult with
  | Except.ok (joinEvents, depositEvents) =>
      { success := true
        totalDeposit := calculateRoomTotalDeposit roomId joinEvents depositEvents }
  | Except.error _ => { success := true, totalDeposit := 0 }

/-- Claim C5: a failed event query is replaced by an empty result set rather
than propagating the failure: a failed PlayerJoined query on the
user-joined-rooms read yields a successful response with an empty room list, a
failed DepositMade query yields the same response as an empty deposit-event
list (joins known, deposits unknown), and a failed event query on the room
read yields totalDeposit 0 with the read still succeeding. -/
theorem c5_query_failure_degrades (nowMs : Nat) (userAddress roomId : String)
    (e1 e2 e3 : String) (joinResult : Except String (List MoveEvent))
    (depositResult : Except String (List MoveEvent)) :
    userJoinedRooms nowMs userAddress (Except.error e1) depositResult
      = { success := true, rooms := [] }
    ∧ userJoinedRooms nowMs userAddress joinResult (Except.error e2)
      = userJoinedRooms nowMs userAddress joinResult (Except.ok [])
    ∧ roomReadTotalDeposit roomId (Except.error e3)
      = { success := true, totalDeposit := 0 } := by
  refine ⟨rfl, ?_, rfl⟩
  cases joinResult with
  | error e => rfl
  | ok joins => rfl

/-- Per-room persisted yield checkpoint row as read by the GET room-by-id
handler (fields accumulatedYield and lastYieldUpdateMs of the database room). -/
structure DbRoomYield where
  accumulatedYield : ℚ
  lastYieldUpdateMs : ℚ
deriving DecidableEq

/-- Strategy to APY table of the GET room-by-id handler: strategy 1 (Growth)
yields 8 percent, strategy 2 (Aggressive) 15 percent, anything else 4 percent. -/
def apyForStrategy (strategy : ℤ) : ℚ :=
  if strategy = 1 then 8 / 100
  else if strategy = 2 then 15 / 100
  else 4 / 100

/-- Output of the yield block of the GET room-by-id handler: the accrued
values that go into the response, plus the updateYield persistence request
issued fire-and-forget (present only when a database room exists and the new
yield is positive). -/
structure YieldBlockOut where
  accumulatedYield : ℚ
  rewardPool : ℚ
  persistRequest : Option (String × ℚ × ℚ)
deriving DecidableEq

/-- Embedding of the yield block (room.routes.ts, GET room-by-id): read the
checkpoint (falling back to the room start time when absent or zero), accrue
principal * apy * elapsedYears, add the accumulated yield to the reward pool,
and request the checkpoint write-back. -/
def yieldBlock (roomId : String) (dbRoom : Option DbRoomYield) (strategy : ℤ)
    (startTime vaultPrincipal rewardPool0 now : ℚ) : YieldBlockOut :=
  let apy := apyForStrategy strategy
  let acc0 : ℚ :=
    match dbRoom with
    | some r => r.accumulatedYield
    | none => 0
  let lastUpdateMs : ℚ :=
    match dbRoom with
    | some r => if r.lastYieldUpdateMs = 0 then startTime else r.lastYieldUpdateMs
    | none => startTime
  let newYield := vaultPrincipal * apy * ((now - lastUpdateMs) / millisecondsPerYear)
  let accumulated := acc0 + newYield
  { accumulatedYield := accumulated
    rewardPool := rewardPool0 + accumulated
    persistRequest :=
      if dbRoom.isSome ∧ 0 < newYield then some (roomId, accumulated, now) else none }

/-- The yield figures the GET room-by-id response carries. -/
structure RoomYieldView where
  accumulatedYield : ℚ
  rewardPool : ℚ
deriving DecidableEq

/-- Running the yield block against a write-back outcome: the response view is
built from the block output alone; a write-back failure only produces a log
line (the catch handler on the un-awaited updateYield promise). -/
def runYieldBlock (out : YieldBlockOut) (writeOutcome : Except String Unit) :
    RoomYieldView × List String :=
  ({ accumulatedYield := out.accumulatedYield, rewardPool := out.rewardPool },
   match out.persistRequest, writeOutcome with
   | some _, Except.error e => [String.append "Failed to update yield in DB: " e]
   | _, _ => [])

/-- Claim C6: the yield-checkpoint write-back is fire-and-forget: the room
read returns the same result whether the write-back succeeds or fails, and a
failure is only logged. -/
theorem c6_writeback_fire_and_forget (out : YieldBlockOut)
    (o1 o2 : Except String Unit) (e : String) :
    (runYieldBlock out o1).fst = (runYieldBlock out o2).fst
    ∧ (out.persistRequest.isSome = true →
        (runYieldBlock out (Except.error e)).snd
          = [String.append "Failed to update yield in DB: " e]) := by
  constructor
  · rfl
  · intro hsome
    rcases hreq : out.persistRequest with _ | req
    · rw [hreq] at hsome
      simp at hsome
    · simp [runYieldBlock, hreq]

/-- Witness for C6: a concrete yield-block output (database room present,
positive new yield, so a persistence request is issued): the response view is
identical under a failing and a succeeding write-back, and the failure is
logged. -/
theorem c6_writeback_witness :
    (runYieldBlock (yieldBlock "0xroom" (some ⟨0, 0⟩) 1 0 100 0 1000) (Except.error "db down")).fst
      = (runYieldBlock (yieldBlock "0xroom" (some ⟨0, 0⟩) 1 0 100 0 1000) (Except.ok ())).fst
    ∧ (runYieldBlock (yieldBlock "0xroom" (some ⟨0, 0⟩) 1 0 100 0 1000)
        (Except.error "db down")).snd
      = [String.append "Failed to update yield in DB: " "db down"] := by
  have h := c6_writeback_fire_and_forget
    (yieldBlock "0xroom" (some ⟨0, 0⟩) 1 0 100 0 1000)
    (Except.error "db down") (Except.ok ()) "db down"
  refine ⟨h.1, h.2 ?_⟩
  norm_num [yieldBlock, apyForStrategy, millisecondsPerYear]

/-- One participant entry of the GET participants handler (room.routes.ts). -/
structure Participant where
  address : String
  playerPositionId : String
  totalDeposit : Nat
  depositsCount : Nat
  joinedAt : Option Nat
deriving DecidableEq

/-- The participant entry seeded from a PlayerJoined event: the initial join
amount counts as the first deposit. -/
def participantOfJoin (e : MoveEvent) : Participant :=
  { address := e.player
    playerPositionId := e.player_position_id
    totalDeposit := eventAmount e
    depositsCount := 1
    joinedAt := e.timestampMs }

/-- One seeding step: participantMap.set(player, entry). -/
def seedStep (m : List (String × Participant)) (e : MoveEvent) :
    List (String × Participant) :=
  mapSet m e.player (participantOfJoin e)

/-- The join-seeded participant map of the GET participants handler. -/
def seedParticipants (roomId : String) (joinEvents : List MoveEvent) :
    List (String × Participant) :=
  (joinEvents.filter (matchesRoom roomId)).foldl seedStep []

/-- The mutation a DepositMade event applies to an existing participant:
add the amount to totalDeposit and increment depositsCount. -/
def depositUpdate (e : MoveEvent) (p : Participant) : Participant :=
  { p with totalDeposit := p.totalDeposit + eventAmount e
           depositsCount := p.depositsCount + 1 }

/-- Folding one DepositMade event into the participant map: only addresses
already present are updated; an absent address is silently ignored. -/
def applyDeposit (m : List (String × Participant)) (e : MoveEvent) :
    List (String × Participant) :=
  if mapHas m e.player then mapUpdate (depositUpdate e) m e.player else m

/-- Embedding of the GET participants handler aggregation: seed from the
matching PlayerJoined events, fold in the matching DepositMade events, return
the values of the map. -/
def roomParticipants (roomId : String) (joinEvents depositEvents : List MoveEvent) :
    List Participant :=
  ((depositEvents.filter (matchesRoom roomId)).foldl applyDeposit
    (seedParticipants roomId joinEvents)).map Prod.snd

lemma mapHas_iff_mem_keys {α : Type} (m : List (String × α)) (k : String) :
    mapHas m k = true ↔ k ∈ m.map Prod.fst := by
  induction m with
  | nil => simp [mapHas]
  | cons p m ih =>
      rw [List.map_cons, List.mem_cons,
          show mapHas (p :: m) k = (p.fst == k || mapHas m k) from rfl,
          Bool.or_eq_true, beq_iff_eq, ih]
      constructor
      · rintro (h | h)
        · exact Or.inl h.symm
        · exact Or.inr h
      · rintro (h | h)
        · exact Or.inl h.symm
        · exact Or.inr h

lemma mapSet_keys {α : Type} (m : List (String × α)) (k : String) (v : α) (x : String) :
    x ∈ (mapSet m k v).map Prod.fst ↔ x ∈ m.map Prod.fst ∨ x = k := by
  induction m with
  | nil => simp [mapSet]
  | cons p m ih =>
      by_cases hk : p.fst = k
      · simp [mapSet, hk, List.map_cons, List.mem_cons]
        tauto
      · simp [mapSet, beq_iff_eq, hk, List.map_cons, List.mem_cons, ih]
        tauto

lemma mapSet_keys_nodup {α : Type} (m : List (String × α)) (k : String) (v : α)
    (h : (m.map Prod.fst).Nodup) : ((mapSet m k v).map Prod.fst).Nodup := by
  induction m with
  | nil => simp [mapSet]
  | cons p m ih =>
      rw [List.map_cons, List.nodup_cons] at h
      by_cases hk : p.fst = k
      · rw [show mapSet (p :: m) k v = (k, v) :: m by simp [mapSet, beq_iff_eq, hk]]
        rw [List.map_cons, List.nodup_cons]
        exact ⟨by rw [← hk]; exact h.1, h.2⟩
      · rw [show mapSet (p :: m) k v = p :: mapSet m k v by simp [mapSet, beq_iff_eq, hk]]
        rw [List.map_cons, List.nodup_cons]
        refine ⟨?_, ih h.2⟩
        intro hmem
        rcases (mapSet_keys m k v p.fst).mp hmem with hin | heq
        · exact h.1 hin
        · exact hk heq

lemma mapUpdate_get_same {α : Type} (f : α → α) (m : List (String × α))
    (k : String) (v : α) (h : mapGet m k = some v) :
    mapGet (mapUpdate f m k) k = some (f v) := by
  induction m with
  | nil => simp [mapGet] at h
  | cons p m ih =>
      by_cases hk : p.fst = k
      · rw [show mapGet (p :: m) k = some p.snd by simp [mapGet, beq_iff_eq, hk]] at h
        rw [show mapUpdate f (p :: m) k = (p.fst, f p.snd) :: m by
              simp [mapUpdate, beq_iff_eq, hk]]
        rw [show mapGet ((p.fst, f p.snd) :: m) k = some (f p.snd) by
              simp [mapGet, beq_iff_eq, hk]]
        rw [Option.some_inj] at h
        rw [h]
      · rw [show mapGet (p :: m) k = mapGet m k by simp [mapGet, beq_iff_eq, hk]] at h
        rw [show mapUpdate f (p :: m) k = p :: mapUpdate f m k by
              simp [mapUpdate, beq_iff_eq, hk]]
        rw [show mapGet (p :: mapUpdate f m k) k = mapGet (mapUpdate f m k) k by
              simp [mapGet, beq_iff_eq, hk]]
        exact ih h

lemma mapUpdate_get_other {α : Type} (f : α → α) (m : List (String × α))
    (k k2 : String) (hk : k2 ≠ k) :
    mapGet (mapUpdate f m k) k2 = mapGet m k2 := by
  induction m with
  | nil => rfl
  | cons p m ih =>
      by_cases hpk : p.fst = k
      · rw [show mapUpdate f (p :: m) k = (p.fst, f p.snd) :: m by
              simp [mapUpdate, beq_iff_eq, hpk]]
        have hne : p.fst ≠ k2 := by rw [hpk]; exact fun hc => hk hc.symm
        rw [show mapGet ((p.fst, f p.snd) :: m) k2 = mapGet m k2 by
              simp [mapGet, beq_iff_eq, hne]]
        rw [show mapGet (p :: m) k2 = mapGet m k2 by simp [mapGet, beq_iff_eq, hne]]
      · rw [show mapUpdate f (p :: m) k = p :: mapUpdate f m k by
              simp [mapUpdate, beq_iff_eq, hpk]]
        by_cases hpk2 : p.fst = k2
        · rw [show mapGet (p :: mapUpdate f m k) k2 = some p.snd by
                simp [mapGet, beq_iff_eq, hpk2]]
          rw [show mapGet (p :: m) k2 = some p.snd by simp [mapGet, beq_iff_eq, hpk2]]
        · rw [show mapGet (p :: mapUpdate f m k) k2 = mapGet (mapUpdate f m k) k2 by
                simp [mapGet, beq_iff_eq, hpk2]]
          rw [show mapGet (p :: m) k2 = mapGet m k2 by simp [mapGet, beq_iff_eq, hpk2]]
          exact ih

lemma seed_foldl_keys (l : List MoveEvent) (m : List (String × Participant))
    (hnd : (m.map Prod.fst).Nodup) :
    ((l.foldl seedStep m).map Prod.fst).Nodup
    ∧ ∀ x, x ∈ (l.foldl seedStep m).map Prod.fst
        ↔ x ∈ m.map Prod.fst ∨ x ∈ l.map MoveEvent.player := by
  induction l generalizing m with
  | nil => simp [hnd]
  | cons e l ih =>
      have hnd2 : ((seedStep m e).map Prod.fst).Nodup :=
        mapSet_keys_nodup m e.player (participantOfJoin e) hnd
      rcases ih (seedStep m e) hnd2 with ⟨ihnd, ihmem⟩
      refine ⟨ihnd, fun x => ?_⟩
      rw [List.foldl_cons, ihmem x, seedStep, mapSet_keys, List.map_cons, List.mem_cons]
      tauto

/-- Claim C8: the participants aggregation builds a map keyed by player
address with one entry per address seeded from the matching PlayerJoined
events; folding in a matching DepositMade event whose address is present adds
its amount to that participant totalDeposit and increments depositsCount
(leaving every other entry unchanged), while a DepositMade event whose address
has no entry leaves the map unchanged; the handler output is the fold of the
matching deposits over the join-seeded map. -/
theorem c8_participants_aggregation (roomId : String)
    (joinEvents depositEvents : List MoveEvent)
    (m : List (String × Participant)) (e : MoveEvent) (p : Participant) :
    (((seedParticipants roomId joinEvents).map Prod.fst).Nodup
      ∧ ∀ x, x ∈ (seedParticipants roomId joinEvents).map Prod.fst
          ↔ x ∈ (joinEvents.filter (matchesRoom roomId)).map MoveEvent.player)
    ∧ (mapHas m e.player = false → applyDeposit m e = m)
    ∧ (mapGet m e.player = some p →
        mapGet (applyDeposit m e) e.player = some (depositUpdate e p)
        ∧ ∀ k, k ≠ e.player → mapGet (applyDeposit m e) k = mapGet m k)
    ∧ roomParticipants roomId joinEvents depositEvents
        = ((depositEvents.filter (matchesRoom roomId)).foldl applyDeposit
            (seedParticipants roomId joinEvents)).map Prod.snd := by
  refine ⟨?_, ?_, ?_, rfl⟩
  · rcases seed_foldl_keys (joinEvents.filter (matchesRoom roomId)) [] (by simp)
      with ⟨hnd, hmem⟩
    exact ⟨hnd, fun x => by rw [seedParticipants, hmem x]; simp⟩
  · intro hno
    simp [applyDeposit, hno]
  · intro hget
    have hhas : mapHas m e.player = true := by
      rw [mapHas_iff_mem_keys]
      induction m with
      | nil => simp [mapGet] at hget
      | cons q m ih =>
          by_cases hq : q.fst = e.player
          · rw [List.map_cons, List.mem_cons]
            exact Or.inl hq.symm
          · rw [show mapGet (q :: m) e.player = mapGet m e.player by
                  simp [mapGet, beq_iff_eq, hq]] at hget
            rw [List.map_cons, List.mem_cons]
            exact Or.inr (ih hget)
    rw [show applyDeposit m e = mapUpdate (depositUpdate e) m e.player by
          simp [applyDeposit, hhas]]
    exact ⟨mapUpdate_get_same _ m e.player p hget,
           fun k hk => mapUpdate_get_other _ m e.player k hk⟩

/-- Witness for C8: concrete join and deposit events: a deposit for an
address absent from the map is ignored, while a deposit for a seeded address
updates totals and counts and leaves the other key unreadable only through the
unchanged map. -/
theorem c8_participants_witness :
    (applyDeposit
        [("0xa", { address := "0xa", playerPositionId := "pos1", totalDeposit := 100,
                   depositsCount := 1, joinedAt := some 5 })]
        { room_id := "0xroom", player := "0xghost", amount := some 70,
          player_position_id := "", timestampMs := some 9 }
      = [("0xa", { address := "0xa", playerPositionId := "pos1", totalDeposit := 100,
                   depositsCount := 1, joinedAt := some 5 })])
    ∧ mapGet (applyDeposit
        [("0xa", { address := "0xa", playerPositionId := "pos1", totalDeposit := 100,
                   depositsCount := 1, joinedAt := some 5 })]
        { room_id := "0xroom", player := "0xa", amount := some 70,
          player_position_id := "", timestampMs := some 9 }) "0xa"
      = some { address := "0xa", playerPositionId := "pos1", totalDeposit := 170,
               depositsCount := 2, joinedAt := some 5 } := by
  constructor
  · exact (c8_participants_aggregation "0xroom" [] []
        [("0xa", { address := "0xa", playerPositionId := "pos1", totalDeposit := 100,
                   depositsCount := 1, joinedAt := some 5 })]
        { room_id := "0xroom", player := "0xghost", amount := some 70,
          player_position_id := "", timestampMs := some 9 }
        { address := "0xa", playerPositionId := "pos1", totalDeposit := 100,
          depositsCount := 1, joinedAt := some 5 }).2.1 (by decide)
  · exact ((c8_participants_aggregation "0xroom" [] []
        [("0xa", { address := "0xa", playerPositionId := "pos1", totalDeposit := 100,
                   depositsCount := 1, joinedAt := some 5 })]
        { room_id := "0xroom", player := "0xa", amount := some 70,
          player_position_id := "", timestampMs := some 9 }
        { address := "0xa", playerPositionId := "pos1", totalDeposit := 100,
          depositsCount := 1, joinedAt := some 5 }).2.2.1 (by decide)).1

/-- A stored Room Directory record, restricted to the fields the room-list and
find-by-password handlers read. -/
structure StoredRoom where
  roomId : String
  vaultId : Option String
  isPrivate : Bool
  passwordHash : Option String
deriving DecidableEq

/-- Embedding of RoomStoreService.findByPasswordHash: the first stored room
whose passwordHash column equals the given hash (Prisma findFirst). -/
def findByPasswordHash (store : List StoredRoom) (hash : String) : Option StoredRoom :=
  store.find? (fun r => r.passwordHash == some hash)

/-- Outcome of the POST find-by-password handler. -/
inductive FindByPasswordResult where
  | badRequest
  | notFound
  | found (roomId : String) (vaultId : Option String)
deriving DecidableEq

/-- Embedding of the POST find-by-password handler (room.routes.ts): reject an
empty password, hash the candidate (the keccak-256 hex digest is an external
library call, passed in abstractly as hashHex), look the hash up in the store,
and answer 404 or the roomId and vaultId of the room found. -/
def findRoomByPassword (hashHex : String → String) (store : List StoredRoom)
    (password : String) : FindByPasswordResult :=
  if password = "" then FindByPasswordResult.badRequest
  else
    match findByPasswordHash store (hashHex password) with
    | none => FindByPasswordResult.notFound
    | some r => FindByPasswordResult.found r.roomId r.vaultId

/-- Claim C7 counterexample: when two private rooms are stored with the same
password hash (two rooms created with the same generated password), looking up
that password returns the FIRST matching room, so for the second room the
lookup does not return that room's roomId and vaultId, refuting the claim as
universally stated. -/
theorem c7_password_counterexample :
    (StoredRoom.mk "0xb" (some "0xvb") true (some "hash-pw")
        ∈ [StoredRoom.mk "0xa" (some "0xva") true (some "hash-pw"),
           StoredRoom.mk "0xb" (some "0xvb") true (some "hash-pw")])
    ∧ (StoredRoom.mk "0xb" (some "0xvb") true (some "hash-pw")).passwordHash
        = some ((fun _ => "hash-pw") "pw")
    ∧ findRoomByPassword (fun _ => "hash-pw")
        [StoredRoom.mk "0xa" (some "0xva") true (some "hash-pw"),
         StoredRoom.mk "0xb" (some "0xvb") true (some "hash-pw")] "pw"
        = FindByPasswordResult.found "0xa" (some "0xva")
    ∧ findRoomByPassword (fun _ => "hash-pw")
        [StoredRoom.mk "0xa" (some "0xva") true (some "hash-pw"),
         StoredRoom.mk "0xb" (some "0xvb") true (some "hash-pw")] "pw"
        ≠ FindByPasswordResult.found
            (StoredRoom.mk "0xb" (some "0xvb") true (some "hash-pw")).roomId
            (StoredRoom.mk "0xb" (some "0xvb") true (some "hash-pw")).vaultId := by
  refine ⟨by decide, rfl, by decide, by decide⟩

lemma find_first_unique {α : Type} (p : α → Bool) (l : List α) (r : α)
    (hmem : r ∈ l) (hr : p r = true)
    (huniq : ∀ r2 ∈ l, p r2 = true → r2 = r) :
    l.find? p = some r := by
  induction l with
  | nil => cases hmem
  | cons x xs ih =>
      by_cases hx : p x = true
      · rw [List.find?_cons_of_pos _ hx, huniq x (List.mem_cons_self x xs) hx]
      · rw [List.find?_cons_of_neg _ hx]
        rcases List.mem_cons.mp hmem with heq | hmem2
        · exact absurd (heq ▸ hr) hx
        · exact ih hmem2 (fun r2 h2 => huniq r2 (List.mem_cons_of_mem x h2))

/-- Claim C7 (amended): looking a non-empty password up returns the room
created with that password provided that room is the only stored room whose
password hash matches the hash of the candidate (without that uniqueness the
lookup returns the first matching room in store order, as the counterexample
shows); a non-empty password whose hash matches no stored room returns
not-found. -/
theorem c7_password_roundtrip (hashHex : String → String) (store : List StoredRoom)
    (password : String) (r : StoredRoom)
    (hp : password ≠ "") (hmem : r ∈ store)
    (hhash : r.passwordHash = some (hashHex password))
    (huniq : ∀ r2 ∈ store, r2.passwordHash = some (hashHex password) → r2 = r) :
    findRoomByPassword hashHex store password
      = FindByPasswordResult.found r.roomId r.vaultId
    ∧ ∀ wrong, wrong ≠ "" →
        (∀ r2 ∈ store, r2.passwordHash ≠ some (hashHex wrong)) →
        findRoomByPassword hashHex store wrong = FindByPasswordResult.notFound := by
  constructor
  · rw [findRoomByPassword, if_neg hp]
    rw [show findByPasswordHash store (hashHex password) = some r from
          find_first_unique _ store r hmem (by rw [beq_iff_eq]; exact hhash)
            (fun r2 h2 hp2 => huniq r2 h2 (by rwa [beq_iff_eq] at hp2))]
  · intro wrong hw hnone
    rw [findRoomByPassword, if_neg hw]
    rw [show findByPasswordHash store (hashHex wrong) = none from ?_]
    rw [findByPasswordHash, List.find?_eq_none]
    intro r2 h2
    rw [Bool.not_eq_true, beq_eq_false_iff_ne, ne_eq]
    exact hnone r2 h2

/-- Witness for C7 (amended): a store holding a single private room whose hash
matches the hashed password: lookup by the right password finds it and lookup
by a wrong password is not-found. -/
theorem c7_password_roundtrip_witness :
    findRoomByPassword (fun s => String.append "h:" s)
        [StoredRoom.mk "0xa" (some "0xva") true (some "h:pw")] "pw"
      = FindByPasswordResult.found "0xa" (some "0xva")
    ∧ findRoomByPassword (fun s => String.append "h:" s)
        [StoredRoom.mk "0xa" (some "0xva") true (some "h:pw")] "wrong"
      = FindByPasswordResult.notFound := by
  have h := c7_password_roundtrip (fun s => String.append "h:" s)
      [StoredRoom.mk "0xa" (some "0xva") true (some "h:pw")] "pw"
      (StoredRoom.mk "0xa" (some "0xva") true (some "h:pw"))
      (by decide) (by decide) (by decide)
      (by intro r2 h2 hh; simpa using h2)
  exact ⟨h.1, h.2 "wrong" (by decide) (by decide)⟩

/-- Outcome of the POST usdc mint handler: a 400 validation error, or a ledger
mint transaction submitted through the relayer. -/
inductive MintOutcome where
  | validationError (msg : String)
  | ledgerMint (recipient : String) (amount : ℚ)
deriving DecidableEq

/-- The fixed per-call mint maximum of the handler: 1000 USDC in base units. -/
def MAX_MINT : ℚ := 1000000000

/-- Embedding of the POST usdc mint handler (usdc.routes.ts): validate the
recipient, reject non-positive amounts, reject amounts above MAX_MINT, and
only then submit the ledger mint call. -/
def mintHandler (recipient : Option String) (amount : ℚ) : MintOutcome :=
  match recipient with
  | none => MintOutcome.validationError "Recipient address required"
  | some r =>
      if r = "" then MintOutcome.validationError "Recipient address required"
      else if amount ≤ 0 then MintOutcome.validationError "Invalid amount"
      else if MAX_MINT < amount then MintOutcome.validationError "Amount too large"
      else MintOutcome.ledgerMint r amount

/-- Claim C9: a mint request whose amount exceeds the per-call maximum
(1000000000 base units) gets a validation error and triggers no ledger call;
the ledger mint is submitted only for positive amounts within the bound (and
with the requested amount). -/
theorem c9_mint_bound (recipient : Option String) (amount : ℚ) :
    (MAX_MINT < amount →
      (∃ msg, mintHandler recipient amount = MintOutcome.validationError msg)
      ∧ ∀ r a, mintHandler recipient amount ≠ MintOutcome.ledgerMint r a)
    ∧ ∀ r a, mintHandler recipient amount = MintOutcome.ledgerMint r a →
        0 < amount ∧ amount ≤ MAX_MINT ∧ a = amount := by
  constructor
  · intro hbig
    rcases recipient with _ | r
    · exact ⟨⟨"Recipient address required", rfl⟩, fun r a => by simp [mintHandler]⟩
    · by_cases hr : r = ""
      · refine ⟨⟨"Recipient address required", by simp [mintHandler, hr]⟩, ?_⟩
        intro r2 a
        simp [mintHandler, hr]
      · by_cases hneg : amount ≤ 0
        · refine ⟨⟨"Invalid amount", by simp [mintHandler, hr, hneg]⟩, ?_⟩
          intro r2 a
          simp [mintHandler, hr, hneg]
        · refine ⟨⟨"Amount too large", by simp [mintHandler, hr, hneg, hbig]⟩, ?_⟩
          intro r2 a
          simp [mintHandler, hr, hneg, hbig]
  · intro r a hmint
    rcases recipient with _ | r2
    · simp [mintHandler] at hmint
    · by_cases hr : r2 = ""
      · simp [mintHandler, hr] at hmint
      · by_cases hneg : amount ≤ 0
        · simp [mintHandler, hr, hneg] at hmint
        · by_cases hbig : MAX_MINT < amount
          · simp [mintHandler, hr, hneg, hbig] at hmint
          · rw [show mintHandler (some r2) amount = MintOutcome.ledgerMint r2 amount by
                  simp [mintHandler, hr, hneg, hbig]] at hmint
            rw [MintOutcome.ledgerMint.injEq] at hmint
            exact ⟨lt_of_not_le hneg, le_of_not_lt hbig, hmint.2.symm⟩

/-- Witness for C9: a concrete 2000 USDC mint request is rejected with a
validation error. -/
theorem c9_mint_bound_witness :
    (∃ msg, mintHandler (some "0xrecipient") 2000000000
        = MintOutcome.validationError msg)
    ∧ ∀ r a, mintHandler (some "0xrecipient") 2000000000
        ≠ MintOutcome.ledgerMint r a :=
  (c9_mint_bound (some "0xrecipient") 2000000000).1 (by norm_num [MAX_MINT])

/-- Embedding of the room-list privacy filter of the GET room handler
(room.routes.ts): private rooms are filtered out unless the query parameter
includePrivate equals the string true. -/
def listRoomsFiltered (allRooms : List StoredRoom)
    (includePrivateParam : Option String) : List StoredRoom :=
  if includePrivateParam = some "true" then allRooms
  else allRooms.filter (fun room => !room.isPrivate)

/-- Claim C10: the room-list read excludes every room whose privacy flag is
set unless the caller passes includePrivate=true (every non-private room is
kept); with the parameter set, every stored room is included. -/
theorem c10_private_room_filter (allRooms : List StoredRoom) (q : Option String) :
    (q = some "true" → listRoomsFiltered allRooms q = allRooms)
    ∧ (q ≠ some "true" →
        (∀ room ∈ listRoomsFiltered allRooms q, room.isPrivate = false)
        ∧ ∀ room ∈ allRooms, room.isPrivate = false →
            room ∈ listRoomsFiltered allRooms q) := by
  constructor
  · intro h
    rw [listRoomsFiltered, if_pos h]
  · intro h
    rw [listRoomsFiltered, if_neg h]
    constructor
    · intro room hmem
      rcases List.mem_filter.mp hmem with ⟨_, hpriv⟩
      rwa [Bool.not_eq_true'] at hpriv
    · intro room hmem hpub
      exact List.mem_filter.mpr ⟨hmem, by rw [hpub]; rfl⟩

/-- Witness for C10: a store with one private and one public room: the
default read keeps only the public room, the explicit read returns both. -/
theorem c10_private_room_filter_witness :
    listRoomsFiltered
        [StoredRoom.mk "0xpriv" none true (some "h"), StoredRoom.mk "0xpub" none false none]
        (some "true")
      = [StoredRoom.mk "0xpriv" none true (some "h"), StoredRoom.mk "0xpub" none false none]
    ∧ ∀ room ∈ listRoomsFiltered
        [StoredRoom.mk "0xpriv" none true (some "h"), StoredRoom.mk "0xpub" none false none]
        none, room.isPrivate = false := by
  constructor
  · exact (c10_private_room_filter _ (some "true")).1 rfl
  · exact ((c10_private_room_filter _ none).2 (by simp)).1

end MoneyRace
